import Mathlib

/-!
Shallow embedding of `game_score_converter.py`: five type-validating
conversion functions and the aggregation workflow of its `__main__` block.

Modelling conventions.  Python runtime values are the inductive `PyValue`;
Python floats are modelled as exact rational numbers (every finite IEEE-754
double is a rational, and every operation the program performs on a float —
the `< 0` comparison and truncation by `int()` — is exact).  Strings are
Lean strings over their ASCII fragment (`str.isdigit` is modelled as the
ASCII digit test).  A Python function that can raise `ValueError` becomes a
function into `Except String _`, the error payload being the message the
source raises.
-/

/-- A Python runtime value, as far as this program observes one.  `pyBool`
is kept distinct from `pyInt` so that Python's `bool <: int` subtyping can
be modelled explicitly in each `isinstance` check. -/
inductive PyValue where
  | pyStr (s : String)
  | pyInt (n : Int)
  | pyBool (b : Bool)
  | pyFloat (q : ℚ)
  | pyNone
deriving DecidableEq

/-- Python `str.isdigit` on the ASCII fragment: true iff the string is
non-empty and every character is a decimal digit. -/
def pyStrIsdigit (s : String) : Bool :=
  !s.data.isEmpty && s.data.all Char.isDigit

/-- Line 1-5: `convert_string_to_int(mining_score)`.  Rejects non-strings
and strings failing `isdigit`; otherwise returns `int(mining_score)`,
modelled as the usual accumulator parse of the digit characters. -/
def convert_string_to_int (mining_score : PyValue) : Except String Int :=
  match mining_score with
  | .pyStr s =>
      if pyStrIsdigit s then
        .ok (Int.ofNat (s.data.foldl (fun a c => 10 * a + (c.toNat - 48)) 0))
      else
        .error "Score must be a string containing only digits"
  | _ => .error "Score must be a string containing only digits"

/-- Truncation toward zero of a rational: Python `int()` applied to a
float.  `Int.tdiv` is the toward-zero integer division. -/
def pyTrunc (q : ℚ) : Int := q.num.tdiv q.den

/-- Line 7-13: `convert_float_to_int(combat_score)`.  Rejects non-floats
(the `isinstance` check; a Python `bool` or `int` is not a `float`), then
negative floats, then returns `int(combat_score)`. -/
def convert_float_to_int (combat_score : PyValue) : Except String Int :=
  match combat_score with
  | .pyFloat q =>
      if q < 0 then .error "Score must be non-negative"
      else .ok (pyTrunc q)
  | _ => .error "Score must be a float"

/-- The characters of the source literal `'0123456789ABCDEFabcdef'`. -/
def hexAlphabet : List Char := "0123456789ABCDEFabcdef".data

/-- The numeric value `int(·, 16)` assigns to one hex-digit character. -/
def hexDigitVal (c : Char) : Nat :=
  if c.isDigit then c.toNat - 48
  else if 'A' ≤ c ∧ c ≤ 'F' then c.toNat - 55
  else c.toNat - 87

/-- Line 15-19: `convert_hex_to_int(achievement_hex)`.  The guard
`all(c in '0123456789ABCDEFabcdef' for c in s)` is vacuously true for the
empty string, which therefore reaches `int('', 16)` and fails there; any
guarded non-empty string is a plain hex numeral, parsed by accumulation. -/
def convert_hex_to_int (achievement_hex : PyValue) : Except String Int :=
  match achievement_hex with
  | .pyStr s =>
      if s.data.all (fun c => decide (c ∈ hexAlphabet)) then
        if s.data.isEmpty then .error "invalid literal for int() with base 16"
        else .ok (Int.ofNat (s.data.foldl (fun a c => 16 * a + hexDigitVal c) 0))
      else .error "Input must be a valid hexadecimal string"
  | _ => .error "Input must be a valid hexadecimal string"

/-- Decimal digits of `n`, least significant first, by repeated
divmod 10 — the digit loop of CPython's integer-to-string conversion.
The first argument is structural-recursion fuel; `n` itself is enough. -/
def natDigitsAux : Nat → Nat → List Nat
  | _, 0 => []
  | 0, _ + 1 => []
  | fuel + 1, n + 1 => (n + 1) % 10 :: natDigitsAux fuel ((n + 1) / 10)

/-- Canonical decimal representation of a natural number: Python `str`
on a non-negative `int` (digits emitted least-significant first, then
reversed; `0` prints as `"0"`). -/
def natRepr (n : Nat) : String :=
  if n = 0 then "0"
  else ⟨((natDigitsAux n n).map fun d => Char.ofNat (48 + d)).reverse⟩

/-- Python `str` on an `int`: a minus sign for negatives, then the digits
of the absolute value. -/
def pyStrOfInt (n : Int) : String :=
  if n < 0 then "-" ++ natRepr n.natAbs else natRepr n.natAbs

/-- Python `str` on a `float`.  CPython prints the shortest decimal that
round-trips; that printing algorithm is outside this development (no
verified claim exercises this branch), so a definite placeholder rendering
of the exact rational is produced instead. -/
def pyStrOfFloat (q : ℚ) : String :=
  natRepr q.num.natAbs ++ "/" ++ natRepr q.den

/-- Line 21-25: `convert_score_to_string(total_score)`.  The check is
`isinstance(total_score, (int, float))`; a Python `bool` is a subtype of
`int`, so `pyBool` passes it and `str(True)`/`str(False)` is returned. -/
def convert_score_to_string (total_score : PyValue) : Except String String :=
  match total_score with
  | .pyInt n => .ok (pyStrOfInt n)
  | .pyBool b => .ok (if b then "True" else "False")
  | .pyFloat q => .ok (pyStrOfFloat q)
  | _ => .error "Score must be a number"

/-- Line 27-31: `create_player_list(player_name, total_score)`.  Rejects a
non-string or empty name (`not player_name` on a string is the emptiness
test); otherwise returns the two-element list `[player_name, total_score]`
with both arguments unchanged. -/
def create_player_list (player_name : PyValue) (total_score : PyValue) :
    Except String (List PyValue) :=
  match player_name with
  | .pyStr s =>
      if s.data.isEmpty then .error "Player name must be a non-empty string"
      else .ok [PyValue.pyStr s, total_score]
  | _ => .error "Player name must be a non-empty string"

/-- Line 39-60: the `__main__` aggregation workflow.  Convert the three raw
inputs in order, sum the components, format the total for display, build
the player record; the first failure aborts the whole run (an uncaught
`ValueError` propagates). -/
def aggregate (mining combat achievement name : PyValue) :
    Except String (Int × Int × Int × Int × String × List PyValue) := do
  let mining_points ← convert_string_to_int mining
  let combat_points ← convert_float_to_int combat
  let achievement_bonus ← convert_hex_to_int achievement
  let total_score := mining_points + combat_points + achievement_bonus
  let score_display ← convert_score_to_string (.pyInt total_score)
  let player_stats ← create_player_list name (.pyInt total_score)
  return (mining_points, combat_points, achievement_bonus, total_score,
    score_display, player_stats)

/-! Helper lemmas shared by the theorems below. -/

/-- Folding `a ↦ b*a + d` over the digits in most-significant-first order
is evaluation of the digit list in base `b`. -/
lemma foldl_mul_add_reverse (b : Nat) (ds : List Nat) :
    ds.reverse.foldl (fun a d => b * a + d) 0 = Nat.ofDigits b ds := by
  induction ds with
  | nil => simp [Nat.ofDigits]
  | cons d t ih =>
      rw [List.reverse_cons, List.foldl_append, ih, Nat.ofDigits_cons]
      exact Nat.add_comm _ _

/-- The accumulator parse of a character list, through a per-character
valuation `v`, equals base-`b` evaluation of the reversed value list. -/
lemma foldl_val_eq_ofDigits (b : Nat) (v : Char → Nat) (l : List Char) :
    l.foldl (fun a c => b * a + v c) 0 = Nat.ofDigits b ((l.map v).reverse) := by
  rw [← foldl_mul_add_reverse b ((l.map v).reverse), List.reverse_reverse,
    List.foldl_map]

/-- Facts about the character `chr(48 + d)` of a decimal digit `d`. -/
lemma digitChar_facts : ∀ d < 10, (Char.ofNat (48 + d)).toNat - 48 = d ∧
    (Char.ofNat (48 + d)).isDigit = true ∧
    (Char.ofNat (48 + d) = '0' ↔ d = 0) := by decide

/-- Uppercasing a hex-alphabet character stays in the alphabet and keeps
its digit value. -/
lemma hexAlphabet_toUpper : ∀ c ∈ hexAlphabet, c.toUpper ∈ hexAlphabet ∧
    hexDigitVal c.toUpper = hexDigitVal c := by decide

/-- For a non-negative rational, truncation toward zero is the floor. -/
lemma pyTrunc_eq_floor {q : ℚ} (h : 0 ≤ q) : pyTrunc q = ⌊q⌋ := by
  rw [Rat.floor_def, pyTrunc]
  exact Int.tdiv_eq_ediv (Rat.num_nonneg.mpr h) (Int.natCast_nonneg _)

/-- On a non-negative float the converter computes the floor. -/
lemma convert_float_to_int_eval {q : ℚ} (h : 0 ≤ q) :
    convert_float_to_int (.pyFloat q) = .ok ⌊q⌋ := by
  simp only [convert_float_to_int]
  rw [if_neg (not_lt.mpr h), pyTrunc_eq_floor h]

/-- With enough fuel, `natDigitsAux` produces the decimal digit list. -/
lemma natDigitsAux_eq_digits :
    ∀ fuel n, n ≤ fuel → natDigitsAux fuel n = Nat.digits 10 n := by
  intro fuel
  induction fuel with
  | zero =>
      intro n hn
      interval_cases n
      simp [natDigitsAux]
  | succ fuel ih =>
      intro n hn
      match n with
      | 0 => simp [natDigitsAux]
      | m + 1 =>
          rw [natDigitsAux, @Nat.digits_def' 10 (by norm_num) (m + 1) (Nat.succ_pos m)]
          rw [ih ((m + 1) / 10) (by omega)]

/-- The characters of `natRepr n`, for positive `n`, are the decimal
digits of `n` in most-significant-first order. -/
lemma natRepr_data {n : Nat} (hn : n ≠ 0) :
    (natRepr n).data =
      ((Nat.digits 10 n).map fun d => Char.ofNat (48 + d)).reverse := by
  rw [natRepr, if_neg hn, natDigitsAux_eq_digits n n le_rfl]

/-- `natRepr` never produces the empty string. -/
lemma natRepr_ne_nil (n : Nat) : (natRepr n).data ≠ [] := by
  by_cases hn : n = 0
  · subst hn; decide
  · rw [natRepr_data hn]
    simp [Nat.digits_ne_nil_iff_ne_zero, hn]

/-- Every character of `natRepr n` is a decimal digit. -/
lemma natRepr_all_digit (n : Nat) : (natRepr n).data.all Char.isDigit = true := by
  by_cases hn : n = 0
  · subst hn; decide
  · rw [natRepr_data hn, List.all_eq_true]
    intro c hc
    rw [List.mem_reverse, List.mem_map] at hc
    obtain ⟨d, hd, rfl⟩ := hc
    exact (digitChar_facts d (Nat.digits_lt_base (by norm_num) hd)).2.1

/-- `natRepr n` starts with the character `'0'` exactly when `n = 0`:
there are no leading zeros beyond `"0"` itself. -/
lemma natRepr_head_zero_iff (n : Nat) :
    (natRepr n).data.head? = some '0' ↔ n = 0 := by
  constructor
  · intro h
    by_contra hn
    rw [natRepr_data hn, List.head?_reverse, List.getLast?_map] at h
    have hne : Nat.digits 10 n ≠ [] := Nat.digits_ne_nil_iff_ne_zero.mpr hn
    rw [List.getLast?_eq_getLast _ hne] at h
    simp only [Option.map_some'] at h
    rw [Option.some_inj] at h
    have hlt := Nat.digits_lt_base (by norm_num) (List.getLast_mem hne)
    exact Nat.getLast_digit_ne_zero 10 hn ((digitChar_facts _ hlt).2.2.mp h)
  · intro h; subst h; decide

/-- The accumulator digit parse recovers `n` from `natRepr n`. -/
lemma natRepr_foldl (n : Nat) :
    (natRepr n).data.foldl (fun a c => 10 * a + (c.toNat - 48)) 0 = n := by
  by_cases hn : n = 0
  · subst hn; decide
  · rw [natRepr_data hn, ← List.map_reverse, List.foldl_map]
    have hext : ∀ a : Nat, ∀ d ∈ (Nat.digits 10 n).reverse,
        10 * a + ((Char.ofNat (48 + d)).toNat - 48) = 10 * a + d := by
      intro a d hd
      rw [(digitChar_facts d
        (Nat.digits_lt_base (by norm_num) (List.mem_reverse.mp hd))).1]
    rw [List.foldl_ext _ _ _ hext, foldl_mul_add_reverse]
    exact Nat.ofDigits_digits 10 n

/-- `natRepr n` passes the `isdigit` guard. -/
lemma pyStrIsdigit_natRepr (n : Nat) : pyStrIsdigit (natRepr n) = true := by
  rw [pyStrIsdigit, Bool.and_eq_true, natRepr_all_digit]
  refine ⟨?_, rfl⟩
  rw [Bool.not_eq_true', List.isEmpty_eq_false]
  exact natRepr_ne_nil n

/-- Parsing `natRepr n` with `convert_string_to_int` gives back `n`. -/
lemma convert_string_to_int_natRepr (n : Nat) :
    convert_string_to_int (.pyStr (natRepr n)) = .ok (n : Int) := by
  simp only [convert_string_to_int, pyStrIsdigit_natRepr, if_pos, natRepr_foldl]
  rfl

/-! The claims. -/

/-- C2: for every float `f ≥ 0` (modelled as an exact rational),
`convert_float_to_int f` succeeds and returns the integer part of `f`
obtained by truncation toward zero, which for `f ≥ 0` equals `⌊f⌋` — never
the rounded value. -/
theorem C2_convert_float_to_int_truncates (q : ℚ) (h : 0 ≤ q) :
    convert_float_to_int (.pyFloat q) = .ok (pyTrunc q) ∧ pyTrunc q = ⌊q⌋ := by
  refine ⟨?_, pyTrunc_eq_floor h⟩
  rw [convert_float_to_int_eval h, pyTrunc_eq_floor h]

/-- Witness for C2 at the claim's own inputs `1.9` and `0.999`:
`convert_float_to_int 1.9 = 1` (not the rounded `2`) and
`convert_float_to_int 0.999 = 0`. -/
theorem C2_witness :
    convert_float_to_int (.pyFloat 1.9) = .ok 1 ∧
      convert_float_to_int (.pyFloat 0.999) = .ok 0 := by
  have h1 := (C2_convert_float_to_int_truncates 1.9 (by norm_num)).1
  have h2 := (C2_convert_float_to_int_truncates 0.999 (by norm_num)).1
  have e1 : pyTrunc (1.9 : ℚ) = 1 := by
    rw [(C2_convert_float_to_int_truncates 1.9 (by norm_num)).2]; norm_num
  have e2 : pyTrunc (0.999 : ℚ) = 0 := by
    rw [(C2_convert_float_to_int_truncates 0.999 (by norm_num)).2]; norm_num
  rw [h1, h2, e1, e2]
  exact ⟨rfl, rfl⟩

/-- C6: `convert_float_to_int` fails with a `ValueError` on every negative
float and on every value that is not a float — including integers, booleans
and numeric strings — and never returns a value in those cases. -/
theorem C6_convert_float_to_int_rejects :
    (∀ q : ℚ, q < 0 → ∃ e, convert_float_to_int (.pyFloat q) = .error e) ∧
    (∀ v : PyValue, (∀ q, v ≠ .pyFloat q) →
      ∃ e, convert_float_to_int v = .error e) := by
  constructor
  · intro q hq
    refine ⟨"Score must be non-negative", ?_⟩
    simp only [convert_float_to_int]
    rw [if_pos hq]
  · intro v hv
    cases v with
    | pyFloat q => exact absurd rfl (hv q)
    | pyStr s => exact ⟨_, rfl⟩
    | pyInt n => exact ⟨_, rfl⟩
    | pyBool b => exact ⟨_, rfl⟩
    | pyNone => exact ⟨_, rfl⟩

/-- Witness for C6: the negative float `-1.0` and the integer `5` are both
rejected. -/
theorem C6_witness :
    (∃ e, convert_float_to_int (.pyFloat (-1)) = .error e) ∧
      (∃ e, convert_float_to_int (.pyInt 5) = .error e) := by
  refine ⟨C6_convert_float_to_int_rejects.1 (-1) (by norm_num),
    C6_convert_float_to_int_rejects.2 (.pyInt 5) ?_⟩
  intro q h
  exact PyValue.noConfusion h

/-- C9: each of the five functions is deterministic — two calls on
identical input yield identical results.  In this embedding the functions
are pure Lean functions of their arguments alone, which is itself the
model of the source's statelessness (no globals, no I/O, no randomness in
any of the five function bodies). -/
theorem C9_deterministic (v w : PyValue) (h : v = w) :
    convert_string_to_int v = convert_string_to_int w ∧
    convert_float_to_int v = convert_float_to_int w ∧
    convert_hex_to_int v = convert_hex_to_int w ∧
    convert_score_to_string v = convert_score_to_string w ∧
    ∀ x y : PyValue, x = y → create_player_list v x = create_player_list w y := by
  subst h
  exact ⟨rfl, rfl, rfl, rfl, fun x y hxy => by rw [hxy]⟩

/-- Witness for C9 at a concrete repeated input. -/
theorem C9_witness :
    convert_string_to_int (.pyStr "7") = convert_string_to_int (.pyStr "7") ∧
      create_player_list (.pyStr "a") (.pyInt 1) =
        create_player_list (.pyStr "a") (.pyInt 1) := by
  have h := C9_deterministic (.pyStr "7") (.pyStr "7") rfl
  exact ⟨h.1, (C9_deterministic (.pyStr "a") (.pyStr "a") rfl).2.2.2.2
    (.pyInt 1) (.pyInt 1) rfl⟩

/-- C3: `convert_string_to_int` succeeds exactly on non-empty all-digit
strings, and then returns the mathematical value of the digit string
(base-10 evaluation of its digits); every other input — negative numerals
like `"-100"`, the empty string, strings with a non-digit character,
non-strings — is rejected with a `ValueError`. -/
theorem C3_convert_string_to_int_spec :
    (∀ v : PyValue, (∃ n, convert_string_to_int v = .ok n) ↔
      ∃ s, v = .pyStr s ∧ s.data ≠ [] ∧ s.data.all Char.isDigit = true) ∧
    (∀ s : String, s.data ≠ [] → s.data.all Char.isDigit = true →
      convert_string_to_int (.pyStr s) =
        .ok (Int.ofNat (Nat.ofDigits 10
          ((s.data.map fun c => c.toNat - 48).reverse)))) := by
  have key : ∀ s : String, s.data ≠ [] → s.data.all Char.isDigit = true →
      convert_string_to_int (.pyStr s) =
        .ok (Int.ofNat (Nat.ofDigits 10
          ((s.data.map fun c => c.toNat - 48).reverse))) := by
    intro s h1 h2
    have hguard : pyStrIsdigit s = true := by
      rw [pyStrIsdigit, Bool.and_eq_true, Bool.not_eq_true',
        List.isEmpty_eq_false]
      exact ⟨h1, h2⟩
    simp only [convert_string_to_int, hguard, if_pos,
      foldl_val_eq_ofDigits 10 (fun c => c.toNat - 48) s.data]
  refine ⟨?_, key⟩
  intro v
  constructor
  · rintro ⟨n, hn⟩
    cases v with
    | pyStr s =>
        refine ⟨s, rfl, ?_⟩
        by_cases hguard : pyStrIsdigit s = true
        · rw [pyStrIsdigit, Bool.and_eq_true, Bool.not_eq_true',
            List.isEmpty_eq_false] at hguard
          exact hguard
        · simp only [convert_string_to_int, hguard] at hn
          simp at hn
    | pyInt m => exact Except.noConfusion hn
    | pyBool b => exact Except.noConfusion hn
    | pyFloat q => exact Except.noConfusion hn
    | pyNone => exact Except.noConfusion hn
  · rintro ⟨s, rfl, h1, h2⟩
    exact ⟨_, key s h1 h2⟩

/-- Witness for C3: `"100"` parses to `100`; the spec-side base-10 value
of its digits is computed concretely. -/
theorem C3_witness :
    convert_string_to_int (.pyStr "100") = .ok 100 := by
  rw [C3_convert_string_to_int_spec.2 "100" (by decide) (by decide)]
  rfl

/-- C4: on every non-empty string over the alphabet
`0123456789ABCDEFabcdef`, `convert_hex_to_int` succeeds and returns the
base-16 value of the string (evaluation of its per-character digit values),
with case insignificant per character; in particular `"1F" → 31`,
`"ff" → 255`, and `"FF"` agrees with `"ff"`. -/
theorem C4_convert_hex_to_int_correct :
    (∀ s : String, s.data ≠ [] → (∀ c ∈ s.data, c ∈ hexAlphabet) →
      convert_hex_to_int (.pyStr s) =
        .ok (Int.ofNat (Nat.ofDigits 16 ((s.data.map hexDigitVal).reverse)))) ∧
    (∀ s : String, (∀ c ∈ s.data, c ∈ hexAlphabet) →
      convert_hex_to_int (.pyStr ⟨s.data.map Char.toUpper⟩) =
        convert_hex_to_int (.pyStr s)) ∧
    convert_hex_to_int (.pyStr "1F") = .ok 31 ∧
    convert_hex_to_int (.pyStr "ff") = .ok 255 ∧
    convert_hex_to_int (.pyStr "FF") = convert_hex_to_int (.pyStr "ff") := by
  have hguard : ∀ s : String, (∀ c ∈ s.data, c ∈ hexAlphabet) →
      (s.data.all fun c => decide (c ∈ hexAlphabet)) = true := by
    intro s hs
    rw [List.all_eq_true]
    intro c hc
    exact decide_eq_true (hs c hc)
  have hok : ∀ s : String, s.data ≠ [] → (∀ c ∈ s.data, c ∈ hexAlphabet) →
      convert_hex_to_int (.pyStr s) =
        .ok (Int.ofNat (Nat.ofDigits 16 ((s.data.map hexDigitVal).reverse))) := by
    intro s h1 h2
    simp only [convert_hex_to_int, hguard s h2, if_pos]
    rw [if_neg, foldl_val_eq_ofDigits 16 hexDigitVal s.data]
    rw [List.isEmpty_eq_true]
    exact h1
  refine ⟨hok, ?_, rfl, rfl, rfl⟩
  intro s hs
  by_cases h1 : s.data = []
  · have : s.data.map Char.toUpper = s.data := by rw [h1]; rfl
    rw [this]
  · have hsu : ∀ c ∈ s.data.map Char.toUpper, c ∈ hexAlphabet := by
      intro c hc
      rw [List.mem_map] at hc
      obtain ⟨a, ha, rfl⟩ := hc
      exact (hexAlphabet_toUpper a (hs a ha)).1
    have h1u : (String.mk (s.data.map Char.toUpper)).data ≠ [] := by
      simpa using h1
    rw [hok ⟨s.data.map Char.toUpper⟩ h1u hsu, hok s h1 hs]
    have hmap : (s.data.map Char.toUpper).map hexDigitVal
        = s.data.map hexDigitVal := by
      rw [List.map_map]
      exact List.map_congr_left fun a ha => (hexAlphabet_toUpper a (hs a ha)).2
    rw [show (String.mk (s.data.map Char.toUpper)).data
        = s.data.map Char.toUpper from rfl, hmap]

/-- Witness for C4 applied at `"1F"`. -/
theorem C4_witness :
    convert_hex_to_int (.pyStr "1F") =
      .ok (Int.ofNat (Nat.ofDigits 16 (("1F".data.map hexDigitVal).reverse))) :=
  C4_convert_hex_to_int_correct.1 "1F" (by decide) (by decide)

/-- C5: `convert_hex_to_int` fails with a `ValueError` on the empty string,
on every string containing a character outside the hex alphabet (so in
particular on `"-1F"`, `"0x1F"` and strings with embedded whitespace), and
on every non-string input. -/
theorem C5_convert_hex_to_int_rejects :
    (∃ e, convert_hex_to_int (.pyStr "") = .error e) ∧
    (∀ s : String, (∃ c ∈ s.data, c ∉ hexAlphabet) →
      ∃ e, convert_hex_to_int (.pyStr s) = .error e) ∧
    (∀ v : PyValue, (∀ s, v ≠ .pyStr s) →
      ∃ e, convert_hex_to_int v = .error e) := by
  refine ⟨⟨_, rfl⟩, ?_, ?_⟩
  · intro s hs
    obtain ⟨c, hc, hnot⟩ := hs
    refine ⟨"Input must be a valid hexadecimal string", ?_⟩
    simp only [convert_hex_to_int]
    rw [if_neg]
    intro hall
    rw [List.all_eq_true] at hall
    exact hnot (of_decide_eq_true (hall c hc))
  · intro v hv
    cases v with
    | pyStr s => exact absurd rfl (hv s)
    | pyInt n => exact ⟨_, rfl⟩
    | pyBool b => exact ⟨_, rfl⟩
    | pyFloat q => exact ⟨_, rfl⟩
    | pyNone => exact ⟨_, rfl⟩

/-- Witness for C5: `"-1F"` (leading minus sign), `"0x1F"` (radix prefix)
and the non-string `None` are all rejected. -/
theorem C5_witness :
    (∃ e, convert_hex_to_int (.pyStr "-1F") = .error e) ∧
      (∃ e, convert_hex_to_int (.pyStr "0x1F") = .error e) ∧
      (∃ e, convert_hex_to_int .pyNone = .error e) := by
  refine ⟨C5_convert_hex_to_int_rejects.2.1 "-1F" (by decide),
    C5_convert_hex_to_int_rejects.2.1 "0x1F" (by decide),
    C5_convert_hex_to_int_rejects.2.2 .pyNone ?_⟩
  intro s h
  exact PyValue.noConfusion h

/-- C7: for every non-empty string name (whitespace-only included) and any
score value, `create_player_list` returns exactly the two-element record
`[name, score]` with both values unchanged; and it fails precisely when the
name is the empty string or not a string at all. -/
theorem C7_create_player_list_spec :
    (∀ (s : String) (v : PyValue), s ≠ "" →
      create_player_list (.pyStr s) v = .ok [PyValue.pyStr s, v]) ∧
    (∀ (name v : PyValue),
      (∃ e, create_player_list name v = .error e) ↔
        (name = .pyStr "" ∨ ∀ s, name ≠ .pyStr s)) := by
  have hdata : ∀ s : String, s ≠ "" → s.data ≠ [] := by
    intro s h hd
    exact h (by cases s; simp_all)
  constructor
  · intro s v h
    simp only [create_player_list]
    rw [if_neg]
    rw [List.isEmpty_eq_true]
    exact hdata s h
  · intro name v
    constructor
    · rintro ⟨e, he⟩
      cases name with
      | pyStr s =>
          left
          simp only [create_player_list] at he
          by_cases hempty : s.data.isEmpty = true
          · rw [List.isEmpty_eq_true] at hempty
            cases s
            simp_all
          · rw [if_neg hempty] at he
            exact Except.noConfusion he
      | pyInt n => exact Or.inr fun s => PyValue.noConfusion
      | pyBool b => exact Or.inr fun s => PyValue.noConfusion
      | pyFloat q => exact Or.inr fun s => PyValue.noConfusion
      | pyNone => exact Or.inr fun s => PyValue.noConfusion
    · rintro (rfl | h)
      · exact ⟨_, rfl⟩
      · cases name with
        | pyStr s => exact absurd rfl (h s)
        | pyInt n => exact ⟨_, rfl⟩
        | pyBool b => exact ⟨_, rfl⟩
        | pyFloat q => exact ⟨_, rfl⟩
        | pyNone => exact ⟨_, rfl⟩

/-- Witness for C7: the record for `"Steve"` with score `229`, and a
whitespace-only name, both built unchanged. -/
theorem C7_witness :
    create_player_list (.pyStr "Steve") (.pyInt 229) =
        .ok [PyValue.pyStr "Steve", PyValue.pyInt 229] ∧
      create_player_list (.pyStr " ") (.pyBool true) =
        .ok [PyValue.pyStr " ", PyValue.pyBool true] :=
  ⟨C7_create_player_list_spec.1 "Steve" (.pyInt 229) (by decide),
    C7_create_player_list_spec.1 " " (.pyBool true) (by decide)⟩

/-- C8: for every non-negative integer `n`, `convert_score_to_string`
returns the canonical base-10 representation of `n` — non-empty, made of
decimal digits only (hence no sign character and no grouping separators),
with a leading `'0'` exactly for `n = 0` — and `convert_string_to_int`
round-trips it back to `n`; in particular `0 ↦ "0"` and
`999999 ↦ "999999"`. -/
theorem C8_convert_score_to_string_canonical :
    (∀ n : Nat,
      convert_score_to_string (.pyInt (n : Int)) = .ok (natRepr n) ∧
      (natRepr n).data ≠ [] ∧
      (natRepr n).data.all Char.isDigit = true ∧
      ((natRepr n).data.head? = some '0' ↔ n = 0) ∧
      convert_string_to_int (.pyStr (natRepr n)) = .ok (n : Int)) ∧
    convert_score_to_string (.pyInt 0) = .ok "0" ∧
    convert_score_to_string (.pyInt 999999) = .ok "999999" := by
  refine ⟨?_, rfl, rfl⟩
  intro n
  refine ⟨?_, natRepr_ne_nil n, natRepr_all_digit n, natRepr_head_zero_iff n,
    convert_string_to_int_natRepr n⟩
  have h0 : ¬ (n : Int) < 0 := by omega
  simp only [convert_score_to_string, pyStrOfInt]
  rw [if_neg h0, Int.natAbs_ofNat]

/-- Witness for C8 at the concrete total `229`. -/
theorem C8_witness :
    convert_score_to_string (.pyInt (229 : Int)) = .ok (natRepr 229) ∧
      convert_string_to_int (.pyStr (natRepr 229)) = .ok (229 : Int) :=
  ⟨(C8_convert_score_to_string_canonical.1 229).1,
    (C8_convert_score_to_string_canonical.1 229).2.2.2.2⟩

/-- C1: the end-to-end aggregation on `mining = "100"`, `combat = 98.7`,
`hex = "1F"`, `name = "Steve"` yields components `100`, `98`, `31`, total
`229`, display string `"229"` and record `["Steve", 229]`. -/
theorem C1_aggregate_end_to_end :
    aggregate (.pyStr "100") (.pyFloat 98.7) (.pyStr "1F") (.pyStr "Steve") =
      .ok (100, 98, 31, 229, "229",
        [PyValue.pyStr "Steve", PyValue.pyInt 229]) := by
  have h2 : convert_float_to_int (.pyFloat 98.7) = .ok 98 := by
    rw [convert_float_to_int_eval (by norm_num)]
    norm_num
  have h1 : convert_string_to_int (.pyStr "100") = .ok 100 := rfl
  have h3 : convert_hex_to_int (.pyStr "1F") = .ok 31 := rfl
  have hsum : (100 : Int) + 98 + 31 = 229 := by norm_num
  have h4 : convert_score_to_string (.pyInt 229) = .ok "229" := rfl
  have h5 : create_player_list (.pyStr "Steve") (.pyInt 229) =
      .ok [PyValue.pyStr "Steve", PyValue.pyInt 229] := rfl
  simp only [aggregate, bind, Except.bind, h1, h2, h3, hsum, h4, h5, pure,
    Except.pure]

/-- C10: a boolean passes `convert_score_to_string`'s numeric type check
(Python's `bool` is a subtype of `int`), so the function does not raise and
returns `str(True) = "True"` or `str(False) = "False"`. -/
theorem C10_convert_score_to_string_bool (b : Bool) :
    convert_score_to_string (.pyBool b) =
      .ok (if b then "True" else "False") := by
  cases b <;> rfl
